import Mathlib

/-!
Verification of the zfswtf utility (src/src/main.rs): a diagnostic tool that
classifies a path as residing on a live ZFS filesystem or on a snapshot, by
correlating statvfs/stat results against the mount table.

The development shallowly embeds the Rust source: `MntTabEnt` and its
`getopt` method, the `get_mnttab_ents` reading loop, and the per-path
probe/resolve logic of `main`.
-/

set_option maxRecDepth 4000

/-- One mount-table row, mirroring `struct MntTabEnt` in src/src/main.rs.
`mntopts` is the raw comma-separated option string, exactly as stored. -/
structure MntTabEnt where
  special : String
  mountp : String
  fstype : String
  mntopts : String
  time : String
  major : Nat
  minor : Nat
deriving DecidableEq, Repr

/-- Modelled from the spec: splitting a character list at every occurrence of
a separator character, the semantics of Rust std `str::split` used by
`MntTabEnt::getopt` on the "comma-separated `key` or `key=value` option
list".  Splitting the empty list yields one empty group, and adjacent
separators yield empty groups, as in Rust. -/
def splitChars (sep : Char) : List Char → List (List Char)
  | [] => [[]]
  | c :: cs =>
    if c = sep then
      [] :: splitChars sep cs
    else
      match splitChars sep cs with
      | [] => [[c]]
      | g :: gs => (c :: g) :: gs

/-- Split a string on a separator character (Rust `str::split`). -/
def splitStr (sep : Char) (s : String) : List String :=
  (splitChars sep s.data).map String.mk

/-- Modelled from the spec: Rust std `str::split_once(sep)` as used by
`MntTabEnt::getopt`: the part before the first occurrence of the separator
and everything after it, or nothing when the separator does not occur. -/
def splitOnceChars (sep : Char) : List Char → Option (List Char × List Char)
  | [] => none
  | c :: cs =>
    if c = sep then
      some ([], cs)
    else
      match splitOnceChars sep cs with
      | none => none
      | some (a, b) => some (c :: a, b)

/-- `str::split_once` lifted to strings. -/
def splitOnce (sep : Char) (t : String) : Option (String × String) :=
  match splitOnceChars sep t.data with
  | none => none
  | some (a, b) => some (String.mk a, String.mk b)

/-- `MntTabEnt::getopt` from src/src/main.rs lines 37-52: split `mntopts` on
commas, keep only `key=value` tokens whose key equals `name`, and return the
value of the first one (Rust `filter_map(...).next()`). -/
def MntTabEnt.getopt (e : MntTabEnt) (name : String) : Option String :=
  ((splitStr ',' e.mntopts).filterMap (fun t =>
    match splitOnce '=' t with
    | some (k, v) => if k = name then some v else none
    | none => none)).head?

/-- The ordered key/value pairs parsed from an option string: every
`key=value` token of the comma-separated list, in order, with valueless
tokens dropped.  This is the spec's "ordered sequence of key/value pairs"
view of the stored options. -/
def parseOpts (s : String) : List (String × String) :=
  (splitStr ',' s).filterMap (splitOnce '=')

/-- Rust `format!("{:x}", n)`, modelled from the spec: the natural lowercase
hexadecimal rendering of an unsigned integer, without leading zeroes
("no leading-zero normalization beyond natural hex formatting"); zero
renders as "0".  `Nat.toDigits 16` is exactly this rendering. -/
def hexFmt (n : Nat) : String :=
  String.mk (Nat.toDigits 16 n)

/-- The sixteen lowercase hexadecimal digit characters. -/
def hexAlphabet : List Char := "0123456789abcdef".data

/-- Modelled from the spec: the major component of a composite device
number under "standard device-number decomposition" (illumos 64-bit
`major(3C)`: bits 32 and up). -/
def dev_major (dev : Nat) : Nat := (dev / 2 ^ 32) % 2 ^ 32

/-- Modelled from the spec: the minor component of a composite device
number (illumos 64-bit `minor(3C)`: the low 32 bits). -/
def dev_minor (dev : Nat) : Nat := dev % 2 ^ 32

/-- The filesystem-level descriptor obtained by the statvfs(2) probe in
`main`: the `f_basetype` string and the compressed `f_fsid`. -/
structure FsDesc where
  basetype : String
  fsid : Nat
deriving DecidableEq, Repr

/-- The path/vnode-level descriptor obtained by the stat(2) probe in
`main`: the composite `st_dev` device number and the `st_fstype` string
recovered from the stat buffer. -/
structure PathDesc where
  device : Nat
  fstype : String
deriving DecidableEq, Repr

/-- The resolver's classification, mirroring `enum WhatIsIt` in `main`. -/
inductive WhatIsIt where
  | Snapshot (s : String)
  | Live (s : String)
deriving DecidableEq, Repr

/-- The `filter_map` closure over mount entries in `main` (src/src/main.rs
lines 242-279): reject entries whose fstype or major differ, reject entries
whose "dev" option is not the hex rendering of the fsid, and classify the
rest as Snapshot when the minor numbers differ, else Live. -/
def entCandidate (basetype : String) (fsid : Nat) (fs_major fs_minor : Nat)
    (ent : MntTabEnt) : Option WhatIsIt :=
  if ent.fstype ≠ basetype ∨ fs_major ≠ ent.major then
    none
  else if ent.getopt "dev" ≠ some (hexFmt fsid) then
    none
  else if fs_minor ≠ ent.minor then
    some (.Snapshot ent.special)
  else
    some (.Live ent.special)

/-- All classifications produced by the matching mount entries, in table
order (the `mats` iterator of `main`, collected). -/
def matchCandidates (fs : FsDesc) (pd : PathDesc) (ents : List MntTabEnt) :
    List WhatIsIt :=
  ents.filterMap
    (entCandidate fs.basetype fs.fsid (dev_major pd.device) (dev_minor pd.device))

/-- The mount entries that survive the resolver's filter (produce a
candidate), in table order. -/
def survivors (fs : FsDesc) (pd : PathDesc) (ents : List MntTabEnt) :
    List MntTabEnt :=
  ents.filter (fun e =>
    (entCandidate fs.basetype fs.fsid (dev_major pd.device) (dev_minor pd.device)
      e).isSome)

/-- The ways the per-path resolution in `main` can fail (each `bail!`). -/
inductive ResolveErr where
  | inconsistentFsType (st_fstype basetype : String)
  | noMatch
  | ambiguousMatch (m1 m2 : WhatIsIt)
deriving DecidableEq, Repr

/-- The core per-path resolution of `main` (src/src/main.rs lines 229-295)
as a pure function: check `st_fstype == f_basetype`, filter-and-classify
the mount table, then branch on zero, one, or more matches exactly as the
iterator code does (`mats.next()` twice). -/
def resolve (fs : FsDesc) (pd : PathDesc) (ents : List MntTabEnt) :
    Except ResolveErr WhatIsIt :=
  if pd.fstype ≠ fs.basetype then
    .error (.inconsistentFsType pd.fstype fs.basetype)
  else
    match matchCandidates fs pd ents with
    | [] => .error .noMatch
    | [m] => .ok m
    | m1 :: m2 :: _ => .error (.ambiguousMatch m1 m2)

deriving instance DecidableEq for Except

/-- The outcome of one `getextmntent(3C)` call as tested by the loop in
`get_mnttab_ents` (src/src/main.rs lines 70-122): a decoded entry (return
value 0), end-of-data (negative return), or a decode error (`err r` stands
for a positive return value `r`). -/
inductive MntRead where
  | ent (e : MntTabEnt)
  | eof
  | err (r : Nat)
deriving DecidableEq, Repr

/-- The reading loop of `get_mnttab_ents`: push decoded entries onto the
output vector, stop with the accumulated entries at end-of-data, and abort
with the error code on a decode error, discarding the accumulated
entries. -/
def readEnts : List MntRead → List MntTabEnt → Except Nat (List MntTabEnt)
  | [], out => .ok out
  | .eof :: _, out => .ok out
  | .err r :: _, _ => .error r
  | .ent e :: rest, out => readEnts rest (out ++ [e])

/-- `get_mnttab_ents` from src/src/main.rs lines 59-127, over a stream of
call outcomes: start from an empty output vector. -/
def get_mnttab_ents (stream : List MntRead) : Except Nat (List MntTabEnt) :=
  readEnts stream []

/-- The probe outcomes for one path argument of `main`: the argument
string, the statvfs(2) result (filesystem descriptor, or the OS error text
when the call fails), and the stat(2) result (path descriptor or OS error
text). -/
structure PathProbe where
  arg : String
  vfs : Except String FsDesc
  st : Except String PathDesc
deriving DecidableEq, Repr

/-- The ways one iteration of `main`'s per-path loop can fail: each
`bail!` with the strings it interpolates into the message. -/
inductive RunErr where
  | statvfsFailed (path : String) (os : String)
  | statFailed (path : String) (os : String)
  | resolveFailed (e : ResolveErr)
deriving DecidableEq, Repr

/-- One iteration of the loop over path arguments in `main`
(src/src/main.rs lines 140-298).  `free0` is `a.free[0]`, the first path
argument of the whole run: the source interpolates `a.free[0]`, not the
current path, into the stat(2) failure message at line 198, while the
statvfs(2) failure message at line 166 uses the current path. -/
def processOne (ents : List MntTabEnt) (free0 : String) (p : PathProbe) :
    Except RunErr WhatIsIt :=
  match p.vfs with
  | .error os => .error (.statvfsFailed p.arg os)
  | .ok fs =>
    match p.st with
    | .error os => .error (.statFailed free0 os)
    | .ok pd =>
      match resolve fs pd ents with
      | .error e => .error (.resolveFailed e)
      | .ok w => .ok w

/-- `main`'s loop over the free arguments: process each path in order and
stop at the first error, returning the classifications of all paths when
every one succeeds. -/
def processList (ents : List MntTabEnt) (free0 : String) :
    List PathProbe → Except RunErr (List WhatIsIt)
  | [] => .ok []
  | p :: rest =>
    match processOne ents free0 p with
    | .error e => .error e
    | .ok w =>
      match processList ents free0 rest with
      | .error e => .error e
      | .ok ws => .ok (w :: ws)

/-- A whole run of `main` over its free path arguments, after the mount
table has been read: `a.free[0]` is the first argument (only ever
evaluated when the argument list is nonempty). -/
def processAll (ents : List MntTabEnt) (ps : List PathProbe) :
    Except RunErr (List WhatIsIt) :=
  processList ents (match ps with | [] => "" | q :: _ => q.arg) ps

/-- The value of `a.free[0]` during a run whose argument list is
`xs ++ p :: ys` for some suffix `ys`: the first element of `xs`, or `p`
itself when `xs` is empty. -/
def firstFree (xs : List PathProbe) (p : PathProbe) : String :=
  match xs with
  | [] => p.arg
  | q :: _ => q.arg

/-- Lookup by key over a token list: taking the first `key=value` token
whose key matches equals an association-list lookup over all parsed
`key=value` pairs. -/
theorem getoptTokens_eq_lookup (name : String) (ts : List String) :
    (ts.filterMap (fun t =>
      match splitOnce '=' t with
      | some (k, v) => if k = name then some v else none
      | none => none)).head? = (ts.filterMap (splitOnce '=')).lookup name := by
  induction ts with
  | nil => rfl
  | cons t ts ih =>
    cases h : splitOnce '=' t with
    | none => simp [List.filterMap_cons, h, ih]
    | some kv =>
      obtain ⟨k, v⟩ := kv
      by_cases hk : k = name
      · subst hk
        simp [List.filterMap_cons, h, List.lookup_cons]
      · have hbeq : (name == k) = false := by
          simp [Ne.symm hk]
        simp [List.filterMap_cons, h, hk, ih, List.lookup_cons, hbeq]

/-- `MntTabEnt.getopt` is association-list lookup over the parsed option
pairs. -/
theorem getopt_eq_lookup (e : MntTabEnt) (name : String) :
    e.getopt name = (parseOpts e.mntopts).lookup name :=
  getoptTokens_eq_lookup name (splitStr ',' e.mntopts)

/-- Association-list lookup returns the value of the first pair carrying
the key. -/
theorem lookup_append_first (name v : String) (l1 l2 : List (String × String))
    (h : ∀ p ∈ l1, p.1 ≠ name) :
    (l1 ++ (name, v) :: l2).lookup name = some v := by
  induction l1 with
  | nil => simp [List.lookup_cons]
  | cons p l ih =>
    obtain ⟨k, w⟩ := p
    have hbeq : (name == k) = false := by
      have := h (k, w) (List.mem_cons_self _ _)
      simp at this
      simp [Ne.symm this]
    simp only [List.cons_append, List.lookup_cons, hbeq]
    exact ih (fun q hq => h q (List.mem_cons_of_mem _ hq))

/-- Association-list lookup misses when no pair carries the key. -/
theorem lookup_none_of_no_key (name : String) (l : List (String × String))
    (h : ∀ p ∈ l, p.1 ≠ name) : l.lookup name = none := by
  induction l with
  | nil => rfl
  | cons p l ih =>
    obtain ⟨k, w⟩ := p
    have hbeq : (name == k) = false := by
      have := h (k, w) (List.mem_cons_self _ _)
      simp at this
      simp [Ne.symm this]
    simp only [List.lookup_cons, hbeq]
    exact ih (fun q hq => h q (List.mem_cons_of_mem _ hq))

/-- Every digit character of a hexadecimal digit value is one of the
sixteen lowercase hexadecimal characters. -/
theorem digitChar_mem_hexAlphabet : ∀ m, m < 16 → Nat.digitChar m ∈ hexAlphabet := by
  decide

/-- A nonzero hexadecimal digit value does not render as the character
zero. -/
theorem digitChar_ne_zero : ∀ m, m < 16 → 0 < m → Nat.digitChar m ≠ '0' := by
  decide

/-- Base-16 digit production only emits lowercase hexadecimal
characters. -/
theorem toDigitsCore_mem (fuel : Nat) :
    ∀ (n : Nat) (ds : List Char), (∀ c ∈ ds, c ∈ hexAlphabet) →
      ∀ c ∈ Nat.toDigitsCore 16 fuel n ds, c ∈ hexAlphabet := by
  induction fuel with
  | zero =>
    intro n ds hds c hc
    exact hds c hc
  | succ fuel ih =>
    intro n ds hds c hc
    rw [Nat.toDigitsCore] at hc
    have hd : ∀ c ∈ Nat.digitChar (n % 16) :: ds, c ∈ hexAlphabet := by
      intro c hc
      rcases List.mem_cons.mp hc with h | h
      · subst h; exact digitChar_mem_hexAlphabet _ (Nat.mod_lt _ (by norm_num))
      · exact hds c h
    by_cases h0 : n / 16 = 0
    · simp only [h0, if_pos] at hc
      exact hd c hc
    · simp only [h0, if_neg, ite_false] at hc
      exact ih (n / 16) _ hd c hc

/-- With enough fuel, base-16 digit production of a positive number starts
with a nonzero digit (the most significant one). -/
theorem toDigitsCore_head (fuel : Nat) :
    ∀ (n : Nat) (ds : List Char), 0 < n → n ≤ fuel →
      ∃ m l, Nat.toDigitsCore 16 fuel n ds = Nat.digitChar m :: l ∧ 0 < m ∧ m < 16 := by
  induction fuel with
  | zero => intro n ds h1 h2; omega
  | succ fuel ih =>
    intro n ds h1 h2
    by_cases h0 : n / 16 = 0
    · refine ⟨n % 16, ds, ?_, by omega, by omega⟩
      rw [Nat.toDigitsCore]
      simp [h0]
    · have hdiv : n / 16 < n := Nat.div_lt_self h1 (by norm_num)
      obtain ⟨m, l, he, hm0, hm16⟩ :=
        ih (n / 16) (Nat.digitChar (n % 16) :: ds) (Nat.pos_of_ne_zero h0) (by omega)
      refine ⟨m, l, ?_, hm0, hm16⟩
      rw [Nat.toDigitsCore]
      simp [h0, he]

/-- The hex rendering uses only the sixteen lowercase hexadecimal
characters. -/
theorem hexFmt_mem (n : Nat) : ∀ c ∈ (hexFmt n).data, c ∈ hexAlphabet := by
  intro c hc
  exact toDigitsCore_mem (n + 1) n [] (by simp) c hc

/-- The hex rendering of a nonzero number has no leading zero. -/
theorem hexFmt_head_ne_zero (n : Nat) (h : n ≠ 0) :
    (hexFmt n).data.head? ≠ some '0' := by
  obtain ⟨m, l, he, hm0, hm16⟩ :=
    toDigitsCore_head (n + 1) n [] (Nat.pos_of_ne_zero h) (by omega)
  unfold hexFmt Nat.toDigits
  rw [he]
  simp only [String.data]
  intro hcontra
  simp at hcontra
  exact digitChar_ne_zero m hm16 hm0 hcontra

/-- Filtering by definedness of an option-valued function commutes with
`filterMap` by it. -/
theorem filterMap_eq_filterMap_filter {α β : Type} (f : α → Option β) (l : List α) :
    l.filterMap f = (l.filter (fun a => (f a).isSome)).filterMap f := by
  induction l with
  | nil => rfl
  | cons a l ih =>
    cases h : f a <;> simp [List.filterMap_cons, List.filter_cons, h, ih]

/-- A mount entry that survives the resolver's filter is classified by its
minor number: Snapshot when it differs from the path's, Live otherwise. -/
theorem entCandidate_isSome_eq (b : String) (fsid maj mnr : Nat) (ent : MntTabEnt)
    (h : (entCandidate b fsid maj mnr ent).isSome) :
    entCandidate b fsid maj mnr ent =
      some (if mnr ≠ ent.minor then .Snapshot ent.special else .Live ent.special) := by
  unfold entCandidate at h ⊢
  split_ifs at h ⊢ <;> simp_all

/-- Reading a stream that begins with decoded entries accumulates exactly
those entries. -/
theorem readEnts_append (tail : List MntRead) (es : List MntTabEnt) :
    ∀ acc : List MntTabEnt,
      readEnts (es.map MntRead.ent ++ tail) acc = readEnts tail (acc ++ es) := by
  induction es with
  | nil => intro acc; simp
  | cons e es ih =>
    intro acc
    rw [List.map_cons, List.cons_append]
    show readEnts (List.map MntRead.ent es ++ tail) (acc ++ [e]) = _
    rw [ih]
    congr 1
    simp

/-- The per-path loop propagates the first failing path's error past any
prefix of successful paths. -/
theorem processList_append_fail (ents : List MntTabEnt) (free0 : String)
    (xs : List PathProbe) (p : PathProbe) (e : RunErr)
    (hok : ∀ x ∈ xs, ∃ w, processOne ents free0 x = .ok w)
    (hfail : processOne ents free0 p = .error e) (ys : List PathProbe) :
    processList ents free0 (xs ++ p :: ys) = .error e := by
  induction xs with
  | nil => simp [processList, hfail]
  | cons x xs ih =>
    obtain ⟨w, hw⟩ := hok x (List.mem_cons_self _ _)
    have hrest := ih (fun y hy => hok y (List.mem_cons_of_mem _ hy))
    simp [processList, hw, hrest]

/-- Claim C1: when the path and filesystem type names agree and exactly one
mount record survives the resolver's filter, `resolve` returns
`Snapshot(r.special)` if the record's minor differs from the path's minor
device component, and `Live(r.special)` if they are equal — in both cases
the device string is the same record's `special` field. -/
theorem resolve_single_match (fs : FsDesc) (pd : PathDesc) (ents : List MntTabEnt)
    (r : MntTabEnt) (hty : pd.fstype = fs.basetype)
    (hone : survivors fs pd ents = [r]) :
    (r.minor ≠ dev_minor pd.device → resolve fs pd ents = .ok (.Snapshot r.special)) ∧
    (r.minor = dev_minor pd.device → resolve fs pd ents = .ok (.Live r.special)) := by
  have hone' : ents.filter (fun e =>
      (entCandidate fs.basetype fs.fsid (dev_major pd.device) (dev_minor pd.device)
        e).isSome) = [r] := hone
  have hsur : (entCandidate fs.basetype fs.fsid (dev_major pd.device)
      (dev_minor pd.device) r).isSome := by
    have hr : r ∈ ents.filter (fun e =>
        (entCandidate fs.basetype fs.fsid (dev_major pd.device) (dev_minor pd.device)
          e).isSome) := by
      rw [hone']; exact List.mem_singleton_self r
    simpa using (List.mem_filter.mp hr).2
  have hmc : matchCandidates fs pd ents =
      [if dev_minor pd.device ≠ r.minor then .Snapshot r.special else .Live r.special] := by
    rw [matchCandidates, filterMap_eq_filterMap_filter, hone']
    simp [List.filterMap_cons, entCandidate_isSome_eq _ _ _ _ _ hsur]
  constructor
  · intro hne
    simp [resolve, hty, hmc, Ne.symm hne]
  · intro heq
    simp [resolve, hty, hmc, heq]

/-- Witness for C1 at the spec's concrete scenario: a single matching
record with equal minor classifies as the live filesystem. -/
theorem resolve_single_match_witness :
    resolve ⟨"zfs", 258721⟩ ⟨151 * 2 ^ 32 + 3, "zfs"⟩
      [⟨"rpool/data", "/data", "zfs", "dev=3f2a1,ro", "t", 151, 3⟩]
      = .ok (.Live "rpool/data") :=
  (resolve_single_match ⟨"zfs", 258721⟩ ⟨151 * 2 ^ 32 + 3, "zfs"⟩
      [⟨"rpool/data", "/data", "zfs", "dev=3f2a1,ro", "t", 151, 3⟩]
      ⟨"rpool/data", "/data", "zfs", "dev=3f2a1,ro", "t", 151, 3⟩
      rfl (by decide)).2 (by decide)

/-- Claim C2: a mount record survives the resolver's filter exactly when its
fstype equals the filesystem descriptor's basetype, its major equals the
major component of the path descriptor's device, and its "dev" option
equals, as an exact string, the lowercase hexadecimal rendering of the
fsid; that rendering uses only lowercase hexadecimal characters and has no
leading zero except for the rendering of zero itself. -/
theorem survives_iff (fs : FsDesc) (pd : PathDesc) (ent : MntTabEnt) :
    ((entCandidate fs.basetype fs.fsid (dev_major pd.device) (dev_minor pd.device)
        ent).isSome ↔
      (ent.fstype = fs.basetype ∧ ent.major = dev_major pd.device ∧
        ent.getopt "dev" = some (hexFmt fs.fsid))) ∧
    (fs.fsid ≠ 0 → (hexFmt fs.fsid).data.head? ≠ some '0') ∧
    (∀ c ∈ (hexFmt fs.fsid).data, c ∈ hexAlphabet) := by
  refine ⟨?_, hexFmt_head_ne_zero _, hexFmt_mem _⟩
  unfold entCandidate
  split_ifs with h1 h2 h3
  all_goals simp_all
  all_goals tauto

/-- Witness for C2: a concrete record with matching fstype, major and "dev"
option survives the filter. -/
theorem survives_iff_witness :
    (entCandidate "zfs" 258721 (dev_major (151 * 2 ^ 32 + 3))
      (dev_minor (151 * 2 ^ 32 + 3))
      ⟨"rpool/a", "/a", "zfs", "dev=3f2a1", "t", 151, 3⟩).isSome :=
  ((survives_iff ⟨"zfs", 258721⟩ ⟨151 * 2 ^ 32 + 3, "zfs"⟩
      ⟨"rpool/a", "/a", "zfs", "dev=3f2a1", "t", 151, 3⟩).1).mpr (by decide)

/-- Claim C3: `resolve` fails with `InconsistentFsType` exactly when the
path descriptor's fstype differs from the filesystem descriptor's
basetype; when they differ the error is produced for every mount table,
before any filtering or classification. -/
theorem inconsistent_iff (fs : FsDesc) (pd : PathDesc) (ents : List MntTabEnt) :
    ((∃ a b, resolve fs pd ents = .error (.inconsistentFsType a b)) ↔
      pd.fstype ≠ fs.basetype) ∧
    (pd.fstype ≠ fs.basetype →
      resolve fs pd ents = .error (.inconsistentFsType pd.fstype fs.basetype)) := by
  constructor
  · constructor
    · rintro ⟨a, b, h⟩
      by_contra hc
      rw [resolve, if_neg (by simp [hc])] at h
      rcases hmc : matchCandidates fs pd ents with _ | ⟨m, _ | ⟨m2, rest⟩⟩ <;>
        simp [hmc] at h
    · intro h
      exact ⟨pd.fstype, fs.basetype, by simp [resolve, h]⟩
  · intro h
    simp [resolve, h]

/-- Witness for C3 at the spec's concrete scenario: a "ufs" path type
against a "zfs" filesystem type fails with `InconsistentFsType` on the
empty table. -/
theorem inconsistent_iff_witness :
    resolve ⟨"zfs", 2457⟩ ⟨151 * 2 ^ 32 + 3, "ufs"⟩ []
      = .error (.inconsistentFsType "ufs" "zfs") :=
  (inconsistent_iff ⟨"zfs", 2457⟩ ⟨151 * 2 ^ 32 + 3, "ufs"⟩ []).2 (by decide)

/-- Counterexample to C4 as stated: with three matching records the error
carries only the first two candidates; the third matching candidate
(`Snapshot "rpool/c"`) appears in the candidate list but in neither slot of
the `AmbiguousMatch` error. -/
theorem ambiguous_not_all_candidates :
    resolve ⟨"zfs", 258721⟩ ⟨151 * 2 ^ 32 + 3, "zfs"⟩
      [⟨"rpool/a", "/a", "zfs", "dev=3f2a1", "t", 151, 3⟩,
       ⟨"rpool/b", "/b", "zfs", "dev=3f2a1", "t", 151, 4⟩,
       ⟨"rpool/c", "/c", "zfs", "dev=3f2a1", "t", 151, 5⟩]
      = .error (.ambiguousMatch (.Live "rpool/a") (.Snapshot "rpool/b")) ∧
    WhatIsIt.Snapshot "rpool/c" ∈ matchCandidates ⟨"zfs", 258721⟩
      ⟨151 * 2 ^ 32 + 3, "zfs"⟩
      [⟨"rpool/a", "/a", "zfs", "dev=3f2a1", "t", 151, 3⟩,
       ⟨"rpool/b", "/b", "zfs", "dev=3f2a1", "t", 151, 4⟩,
       ⟨"rpool/c", "/c", "zfs", "dev=3f2a1", "t", 151, 5⟩] ∧
    WhatIsIt.Snapshot "rpool/c" ≠ WhatIsIt.Live "rpool/a" ∧
    WhatIsIt.Snapshot "rpool/c" ≠ WhatIsIt.Snapshot "rpool/b" := by
  decide

/-- Claim C4 as amended: with two or more matching candidates (and
consistent type names) `resolve` fails with `AmbiguousMatch` carrying the
first two candidates in table order, and never returns a Live or Snapshot
classification by silently picking one. -/
theorem resolve_multi_match (fs : FsDesc) (pd : PathDesc) (ents : List MntTabEnt)
    (c1 c2 : WhatIsIt) (rest : List WhatIsIt) (hty : pd.fstype = fs.basetype)
    (hmc : matchCandidates fs pd ents = c1 :: c2 :: rest) :
    resolve fs pd ents = .error (.ambiguousMatch c1 c2) ∧
    ∀ w, resolve fs pd ents ≠ .ok w := by
  have h : resolve fs pd ents = .error (.ambiguousMatch c1 c2) := by
    simp [resolve, hty, hmc]
  exact ⟨h, fun w => by simp [h]⟩

/-- Witness for the amended C4: a table with exactly two matching records
fails with `AmbiguousMatch` carrying both. -/
theorem resolve_multi_match_witness :
    resolve ⟨"zfs", 258721⟩ ⟨151 * 2 ^ 32 + 3, "zfs"⟩
      [⟨"rpool/a", "/a", "zfs", "dev=3f2a1", "t", 151, 3⟩,
       ⟨"rpool/b", "/b", "zfs", "dev=3f2a1", "t", 151, 4⟩]
      = .error (.ambiguousMatch (.Live "rpool/a") (.Snapshot "rpool/b")) :=
  (resolve_multi_match ⟨"zfs", 258721⟩ ⟨151 * 2 ^ 32 + 3, "zfs"⟩
      [⟨"rpool/a", "/a", "zfs", "dev=3f2a1", "t", 151, 3⟩,
       ⟨"rpool/b", "/b", "zfs", "dev=3f2a1", "t", 151, 4⟩]
      (.Live "rpool/a") (.Snapshot "rpool/b") [] rfl (by decide)).1

/-- Claim C5: with consistent type names, when no mount record survives the
resolver's filter, `resolve` fails with `NoMatch` and produces no
classification. -/
theorem resolve_no_match (fs : FsDesc) (pd : PathDesc) (ents : List MntTabEnt)
    (hty : pd.fstype = fs.basetype)
    (hnone : survivors fs pd ents = []) :
    resolve fs pd ents = .error .noMatch := by
  have hnone' : ents.filter (fun e =>
      (entCandidate fs.basetype fs.fsid (dev_major pd.device) (dev_minor pd.device)
        e).isSome) = [] := hnone
  have hmc : matchCandidates fs pd ents = [] := by
    rw [matchCandidates, filterMap_eq_filterMap_filter, hnone']
    rfl
  simp [resolve, hty, hmc]

/-- Witness for C5 at the spec's concrete scenario: an fsid whose hex
rendering matches no "dev" option yields `NoMatch`. -/
theorem resolve_no_match_witness :
    resolve ⟨"zfs", 2457⟩ ⟨151 * 2 ^ 32 + 3, "zfs"⟩
      [⟨"rpool/a", "/a", "zfs", "dev=3f2a1", "t", 151, 3⟩]
      = .error .noMatch :=
  resolve_no_match ⟨"zfs", 2457⟩ ⟨151 * 2 ^ 32 + 3, "zfs"⟩
    [⟨"rpool/a", "/a", "zfs", "dev=3f2a1", "t", 151, 3⟩] rfl (by decide)

/-- Claim C6 failing input: with two path arguments where the second one's
stat(2) probe fails, the run fails, but the error message names the FIRST
path argument (`a.free[0]` at src/src/main.rs line 198) instead of the
offending path being probed. -/
theorem stat_error_names_first_arg :
    processAll
      [⟨"rpool/data", "/data", "zfs", "dev=3f2a1,ro", "t", 151, 3⟩]
      [⟨"/data/ok.txt", .ok ⟨"zfs", 258721⟩, .ok ⟨151 * 2 ^ 32 + 3, "zfs"⟩⟩,
       ⟨"/data/bad.txt", .ok ⟨"zfs", 258721⟩, .error "No such file or directory"⟩]
      = .error (.statFailed "/data/ok.txt" "No such file or directory") ∧
    "/data/ok.txt" ≠ "/data/bad.txt" := by
  decide

/-- Claim C7: reading a mount-table stream returns exactly the records
before the end-of-data signal, and a decode failure mid-stream aborts with
the error alone — the records decoded before the failure are discarded and
no partial sequence is returned. -/
theorem get_mnttab_ents_spec (es : List MntTabEnt) (post : List MntRead) (r : Nat) :
    get_mnttab_ents (es.map MntRead.ent ++ MntRead.eof :: post) = .ok es ∧
    get_mnttab_ents (es.map MntRead.ent ++ MntRead.err r :: post) = .error r := by
  constructor <;>
    simp [get_mnttab_ents, readEnts_append, readEnts]

/-- Claim C8: `getopt` is association-list lookup over the ordered parsed
option pairs, and in particular, whenever the parsed pairs decompose as a
prefix free of the key followed by a pair carrying the key, it returns that
pair's value — the first match when the key occurs multiple times. -/
theorem getopt_first_match (e : MntTabEnt) (name : String) :
    e.getopt name = (parseOpts e.mntopts).lookup name ∧
    ∀ l1 l2 v, parseOpts e.mntopts = l1 ++ (name, v) :: l2 →
      (∀ p ∈ l1, p.1 ≠ name) → e.getopt name = some v := by
  refine ⟨getopt_eq_lookup e name, ?_⟩
  intro l1 l2 v hpar hkeys
  rw [getopt_eq_lookup, hpar]
  exact lookup_append_first name v l1 l2 hkeys

/-- Witness for C8: with the key "dev" occurring twice, `getopt` returns
the first value. -/
theorem getopt_first_match_witness :
    (⟨"rpool", "/p", "zfs", "dev=1,ro,dev=2", "t", 1, 2⟩ : MntTabEnt).getopt "dev"
      = some "1" :=
  (getopt_first_match ⟨"rpool", "/p", "zfs", "dev=1,ro,dev=2", "t", 1, 2⟩ "dev").2
    [] [("dev", "2")] "1" (by decide) (by decide)

/-- Claim C9: path arguments are processed in order and the first error
terminates the whole run: if every path of the prefix succeeds and path `p`
fails, the run fails with `p`'s error for EVERY suffix of further path
arguments, which are therefore never probed or resolved, and no results
are aggregated across the failure. -/
theorem processAll_fail_fast (ents : List MntTabEnt) (xs : List PathProbe)
    (p : PathProbe) (e : RunErr)
    (hok : ∀ x ∈ xs, ∃ w, processOne ents (firstFree xs p) x = .ok w)
    (hfail : processOne ents (firstFree xs p) p = .error e) :
    ∀ ys : List PathProbe, processAll ents (xs ++ p :: ys) = .error e := by
  intro ys
  have hhead : (match xs ++ p :: ys with | [] => "" | q :: _ => q.arg)
      = firstFree xs p := by
    cases xs <;> rfl
  unfold processAll
  rw [hhead]
  exact processList_append_fail ents _ xs p e hok hfail ys

/-- Witness for C9: the first path succeeds, the second path's statvfs(2)
probe fails, and the run fails with that error while a third path is still
pending. -/
theorem processAll_fail_fast_witness :
    processAll [⟨"rpool/data", "/data", "zfs", "dev=3f2a1,ro", "t", 151, 3⟩]
      [⟨"/data/one.txt", .ok ⟨"zfs", 258721⟩, .ok ⟨151 * 2 ^ 32 + 3, "zfs"⟩⟩,
       ⟨"/gone", .error "I/O error", .ok ⟨151 * 2 ^ 32 + 3, "zfs"⟩⟩,
       ⟨"/data/two.txt", .ok ⟨"zfs", 258721⟩, .ok ⟨151 * 2 ^ 32 + 3, "zfs"⟩⟩]
      = .error (.statvfsFailed "/gone" "I/O error") :=
  processAll_fail_fast [⟨"rpool/data", "/data", "zfs", "dev=3f2a1,ro", "t", 151, 3⟩]
    [⟨"/data/one.txt", .ok ⟨"zfs", 258721⟩, .ok ⟨151 * 2 ^ 32 + 3, "zfs"⟩⟩]
    ⟨"/gone", .error "I/O error", .ok ⟨151 * 2 ^ 32 + 3, "zfs"⟩⟩
    (.statvfsFailed "/gone" "I/O error")
    (by
      intro x hx
      rw [List.mem_singleton] at hx
      subst hx
      exact ⟨.Live "rpool/data", by decide⟩)
    (by decide)
    [⟨"/data/two.txt", .ok ⟨"zfs", 258721⟩, .ok ⟨151 * 2 ^ 32 + 3, "zfs"⟩⟩]

/-- Claim C10: option lookup considers only `key=value` tokens — when no
parsed pair carries the key (in particular when the key occurs only as a
bare valueless option), `getopt` returns `none`, so a valueless option can
never satisfy the resolver's "dev" comparison. -/
theorem getopt_requires_value (e : MntTabEnt) (name : String)
    (h : ∀ p ∈ parseOpts e.mntopts, p.1 ≠ name) :
    e.getopt name = none := by
  rw [getopt_eq_lookup]
  exact lookup_none_of_no_key name _ h

/-- Witness for C10: "dev" present only as a bare option yields no
value. -/
theorem getopt_requires_value_witness :
    (⟨"rpool", "/p", "zfs", "ro,dev,setuid", "t", 1, 2⟩ : MntTabEnt).getopt "dev"
      = none :=
  getopt_requires_value ⟨"rpool", "/p", "zfs", "ro,dev,setuid", "t", 1, 2⟩ "dev"
    (by decide)
